import Mathlib

/-!
Verification development for the rommate ROM organizer
(`src/core/cartridge_checker.py` and `src/core/rom_health.py`).

The Python code is shallowly embedded: file contents are lists of byte
values (`Nat`), text is `List Char`, the filesystem is a total map from
path to a `FileState` (suitable because every path handed to the checker
was produced by the directory walk, so it exists; `unreadable` covers
permission errors and mid-stream read failures, both of which the source
catches with a bare `except`).  The external `hashlib` MD5/SHA1 digest
routines are abstracted as function parameters `md5f`/`sha1f` returning
the lowercase hexdigest of a byte stream, exactly the interface the
source consumes; CRC32 is implemented concretely (zlib's polynomial).
Python `int` is modelled by `Int`, `float` similarity arithmetic by `ℚ`.
-/

namespace Rommate

/-- ASCII lowering of a character list, modelling `str.lower()` on the
filenames and names the checker handles. -/
def lowerL (s : List Char) : List Char := s.map Char.toLower

/-- ASCII raising of a character list, modelling `str.upper()`. -/
def upperL (s : List Char) : List Char := s.map Char.toUpper

/-- Index of the last occurrence of `c` in `s`, `-1` when absent,
modelling `str.rfind`. -/
def lastIdxOf (c : Char) (s : List Char) : Int :=
  (s.foldl (fun p ch => (p.1 + 1, if ch = c then p.1 else p.2)) ((0 : Int), (-1 : Int))).2

/-- Model of `os.path.splitext` (POSIX): split at the last dot of the
last path component, provided a non-dot character precedes it there. -/
def splitext (p : List Char) : List Char × List Char :=
  let sepIdx := lastIdxOf '/' p
  let dotIdx := lastIdxOf '.' p
  if sepIdx < dotIdx then
    let fnStart := (sepIdx + 1).toNat
    let mid := (p.drop fnStart).take (dotIdx.toNat - fnStart)
    if mid.any (fun ch => ch ≠ '.') then (p.take dotIdx.toNat, p.drop dotIdx.toNat)
    else (p, [])
  else (p, [])

/-- Model of `os.path.basename` (POSIX): the part after the last slash. -/
def basename (p : List Char) : List Char :=
  p.foldl (fun acc ch => if ch = '/' then [] else acc ++ [ch]) []

/-- Python's substring test `p in s` on character lists. -/
def containsSub (s p : List Char) : Bool :=
  match s with
  | [] => p.isEmpty
  | c :: t => p.isPrefixOf (c :: t) || containsSub t p

/-- Association-list lookup, modelling a Python dict read
(`d[k]` / `k in d`); keys are unique in all the dicts modelled here. -/
def assocLookup {α β : Type} [DecidableEq α] (l : List (α × β)) (k : α) : Option β :=
  (l.find? (fun kv => decide (kv.1 = k))).map (fun kv => kv.2)

/-- Association-list write, modelling a Python dict store `d[k] = v`:
an existing key keeps its position and gets the new value, a fresh key
is appended (insertion order preserved). -/
def assocInsert {α β : Type} [DecidableEq α] : List (α × β) → α → β → List (α × β)
  | [], k, v => [(k, v)]
  | kv :: rest, k, v => if kv.1 = k then (k, v) :: rest else kv :: assocInsert rest k v

/-! ### Static system tables (`CartridgeChecker` class attributes) -/

/-- `CartridgeChecker.SYSTEM_EXTENSIONS`, in source order. -/
def SYSTEM_EXTENSIONS : List (String × List (List Char)) :=
  [ ("nes", [".nes".toList, ".unf".toList, ".unif".toList]),
    ("snes", [".sfc".toList, ".smc".toList]),
    ("n64", [".n64".toList, ".z64".toList, ".v64".toList]),
    ("gb", [".gb".toList]),
    ("gbc", [".gbc".toList]),
    ("gba", [".gba".toList]),
    ("nds", [".nds".toList]),
    ("3ds", [".3ds".toList, ".cci".toList, ".cia".toList]),
    ("genesis", [".gen".toList, ".md".toList, ".smd".toList]),
    ("sms", [".sms".toList]),
    ("gamegear", [".gg".toList]),
    ("sega32x", [".32x".toList]),
    ("a2600", [".a26".toList]),
    ("a7800", [".a78".toList]),
    ("pce", [".pce".toList]),
    ("ngp", [".ngp".toList, ".ngc".toList]),
    ("ws", [".ws".toList, ".wsc".toList]),
    ("ps1", [".bin".toList, ".img".toList, ".iso".toList]),
    ("ps2", [".iso".toList]),
    ("ps3", [".iso".toList]),
    ("psp", [".iso".toList, ".cso".toList]),
    ("gamecube", [".iso".toList, ".gcm".toList, ".gcz".toList]),
    ("wii", [".iso".toList, ".wbfs".toList]),
    ("xbox", [".iso".toList]),
    ("xbox360", [".iso".toList]),
    ("saturn", [".bin".toList, ".iso".toList]),
    ("dreamcast", [".cdi".toList, ".gdi".toList]),
    ("segacd", [".bin".toList, ".iso".toList]),
    ("neogeocd", [".bin".toList, ".iso".toList]) ]

/-- `CartridgeChecker.REDUMP_SYSTEMS`. -/
def REDUMP_SYSTEMS : List String :=
  ["ps1", "ps2", "ps3", "psp", "gamecube", "wii",
   "xbox", "xbox360", "saturn", "dreamcast", "segacd", "neogeocd"]

/-- `CartridgeChecker.HEADER_SYSTEMS`: external-header byte counts. -/
def HEADER_SYSTEMS : List (String × Nat) :=
  [("snes", 512), ("nes", 16), ("n64", 0), ("gb", 0), ("gbc", 0), ("gba", 0)]

/-! ### Filesystem model -/

/-- State of a file: `readable` with its byte content, or `unreadable`
with just a stat size (open/read raises, `os.path.getsize` works). -/
inductive FileState where
  | readable (bytes : List Nat)
  | unreadable (size : Nat)

/-- The filesystem as seen by the checker: a map from path to state. -/
abbrev FS := List Char → FileState

/-- Model of `os.path.getsize`. -/
def getsize (fs : FS) (f : List Char) : Nat :=
  match fs f with
  | .readable b => b.length
  | .unreadable n => n

/-- Model of `open(f,'rb').read()`; `none` when opening or reading
fails. -/
def readAll (fs : FS) (f : List Char) : Option (List Nat) :=
  match fs f with
  | .readable b => some b
  | .unreadable _ => none

/-! ### `detect_system` -/

/-- `CartridgeChecker.detect_system`: first system whose extension list
contains the lowercased extension of the path. -/
def detect_system (rom_file : List Char) : Option String :=
  let ext := lowerL (splitext rom_file).2
  (SYSTEM_EXTENSIONS.find? (fun se => decide (ext ∈ se.2))).map (fun se => se.1)

/-! ### `calculate_checksums` -/

/-- One table step of the CRC-32 polynomial (zlib, 0xEDB88320),
`n` iterations remaining. -/
def crcTableAux : Nat → Nat → Nat
  | 0, r => r
  | n + 1, r => crcTableAux n (if r % 2 = 1 then Nat.xor (r / 2) 0xEDB88320 else r / 2)

/-- CRC-32 table entry for byte `b` (eight shift/xor rounds). -/
def crcTable (b : Nat) : Nat := crcTableAux 8 b

/-- One byte of CRC-32 state update. -/
def crcByte (crc b : Nat) : Nat :=
  Nat.xor (crc / 256) (crcTable (Nat.xor crc b % 256))

/-- `zlib.crc32(data, value)`: pre/post complement around the bytewise
table run. -/
def crcZ (value : Nat) (data : List Nat) : Nat :=
  Nat.xor (data.foldl crcByte (Nat.xor (value % 2 ^ 32) 0xFFFFFFFF)) 0xFFFFFFFF

/-- Split a byte stream into the 8192-byte chunks the read loop sees. -/
def chunksAux : Nat → List Nat → List (List Nat)
  | 0, _ => []
  | _, [] => []
  | fuel + 1, l => l.take 8192 :: chunksAux fuel (l.drop 8192)

/-- The chunk sequence produced by `f.read(8192)` until exhaustion. -/
def chunks8192 (l : List Nat) : List (List Nat) := chunksAux l.length l

/-- Running CRC at the end of the read loop (`crc32 = zlib.crc32(chunk, crc32)`
over every chunk, starting from 0). -/
def crcOfStream (data : List Nat) : Nat :=
  (chunks8192 data).foldl (fun c ch => crcZ c ch) 0

/-- Lowercase hex digit. -/
def hexDigitChar (n : Nat) : Char :=
  if n < 10 then Char.ofNat (48 + n) else Char.ofNat (87 + n)

/-- Hex digits of `n` (no leading zeros), with recursion fuel. -/
def toHexAux : Nat → Nat → List Char
  | 0, _ => []
  | fuel + 1, n => if n = 0 then [] else toHexAux fuel (n / 16) ++ [hexDigitChar (n % 16)]

/-- `format(n, '08x')` for `n < 2^32`: lowercase hex, zero-padded to 8. -/
def format08x (n : Nat) : List Char :=
  let digs := if n = 0 then ['0'] else toHexAux 8 n
  List.replicate (8 - digs.length) '0' ++ digs

/-- The CRC32 hex string the source builds:
`format(crc32 & 0xFFFFFFFF, '08x').upper()`. -/
def crc32_hex (data : List Nat) : List Char :=
  upperL (format08x (crcOfStream data % 2 ^ 32))

/-- `CartridgeChecker.calculate_checksums`: seek past `skip_bytes`, then
stream the rest; any open/read failure is caught and yields the
`(None, None, None)` sentinel.  `md5f`/`sha1f` are the `hashlib`
hexdigests (lowercase) of the streamed bytes; the source uppercases
them. -/
def calculate_checksums (md5f sha1f : List Nat → List Char) (fs : FS)
    (rom_file : List Char) (skip_bytes : Nat) :
    Option (List Char) × Option (List Char) × Option (List Char) :=
  match fs rom_file with
  | .unreadable _ => (none, none, none)
  | .readable bytes =>
      let data := bytes.drop skip_bytes
      (some (crc32_hex data), some (upperL (md5f data)), some (upperL (sha1f data)))

/-! ### `has_external_header` -/

/-- The iNES magic `b'NES\x1a'`. -/
def nesSignature : List Nat := [78, 69, 83, 26]

/-- `CartridgeChecker.has_external_header`. -/
def has_external_header (fs : FS) (rom_file : List Char) (system : String) : Bool :=
  match assocLookup HEADER_SYSTEMS system with
  | none => false
  | some header_size =>
    if header_size = 0 then false
    else
      let file_size := getsize fs rom_file
      if system = "snes" then decide (file_size % 1024 = 512)
      else if system = "nes" then
        match readAll fs rom_file with
        | none => false
        | some b => decide (b.take 4 = nesSignature)
      else false

/-! ### `detect_rom_hack` -/

/-- Translation marker substrings, in source order. -/
def translation_patterns : List (List Char) :=
  ["[t+", "[t-", "(t+", "(t-", "translation", "translated"].map String.toList

/-- Explicit hack marker substrings, in source order. -/
def hack_patterns : List (List Char) :=
  ["[hack]", "[h]", "(hack)", "(h)", "improved", "enhanced", "redux",
   "remastered", "fixed", "bugfix", "difficulty", "hack by", "rom hack"].map String.toList

/-- Version/beta marker substrings, in source order. -/
def version_patterns : List (List Char) :=
  ["v1.", "v2.", "v3.", "v4.", "v5.", "beta", "alpha", "demo", "proto",
   "preview", "test"].map String.toList

/-- `CartridgeChecker.detect_rom_hack`: the three pattern groups checked
in priority order against the lowercased filename.  The version group
returns only when neither "rev" nor "prototype" occurs (that guard does
not depend on which pattern matched, so the first-found pattern decides). -/
def detect_rom_hack (filename : List Char) : Bool × Option String × Option String :=
  let fl := lowerL filename
  match translation_patterns.find? (fun p => containsSub fl p) with
  | some _ => (true, some "translation", some "95%")
  | none =>
    match hack_patterns.find? (fun p => containsSub fl p) with
    | some _ => (true, some "hack", some "90%")
    | none =>
      match version_patterns.find? (fun p => containsSub fl p) with
      | some _ =>
          if ¬ containsSub fl "rev".toList ∧ ¬ containsSub fl "prototype".toList then
            (true, some "modified", some "80%")
          else (false, none, none)
      | none => (false, none, none)

/-! ### `fuzzy_name_match` and its `difflib.SequenceMatcher` core -/

/-- Length of the common prefix of two character lists. -/
def commonPrefixLen : List Char → List Char → Nat
  | a :: as, b :: bs => if a = b then commonPrefixLen as bs + 1 else 0
  | _, _ => 0

/-- All matching-block candidates `(i, j, k)` where `k` is the length of
the common prefix of `a` from `i` and `b` from `j`, enumerated with `i`
outer-ascending and `j` inner-ascending. -/
def flmCands (a b : List Char) : List (Nat × Nat × Nat) :=
  (List.range a.length).flatMap fun i =>
    (List.range b.length).map fun j => (i, j, commonPrefixLen (a.drop i) (b.drop j))

/-- Keep the strictly longer candidate, so the first candidate of
maximal length wins (earliest `i`, then earliest `j`), matching
`SequenceMatcher.find_longest_match`. -/
def pickBest (best cand : Nat × Nat × Nat) : Nat × Nat × Nat :=
  if cand.2.2 > best.2.2 then cand else best

/-- `SequenceMatcher.find_longest_match` over the whole ranges: the
longest matching block, ties going to the earliest start in `a` and
then in `b`; `(0, 0, 0)` when nothing matches. -/
def findLongestMatch (a b : List Char) : Nat × Nat × Nat :=
  (flmCands a b).foldl pickBest (0, 0, 0)

/-- Total size of the matching blocks (the `sum(size for ... in
get_matching_blocks)` that `ratio` uses): recursively split around the
longest match.  Fuel `a.length + b.length` strictly exceeds the
recursion depth because each level removes at least one element from
each side of the split. -/
def matchingTotalF : Nat → List Char → List Char → Nat
  | 0, _, _ => 0
  | fuel + 1, a, b =>
      let t := findLongestMatch a b
      if t.2.2 = 0 then 0
      else
        matchingTotalF fuel (a.take t.1) (b.take t.2.1) + t.2.2 +
          matchingTotalF fuel (a.drop (t.1 + t.2.2)) (b.drop (t.2.1 + t.2.2))

/-- Total matched size between `a` and `b`. -/
def matchingTotal (a b : List Char) : Nat :=
  matchingTotalF (a.length + b.length) a b

/-- `SequenceMatcher.ratio()`: `2*M / (len(a)+len(b))`, and 1.0 when both
sequences are empty (difflib's `_calculate_ratio`). -/
def seqScore (a b : List Char) : ℚ :=
  let total := a.length + b.length
  if total = 0 then 1 else 2 * (matchingTotal a b : ℚ) / (total : ℚ)

/-- The fixed tag substrings `fuzzy_name_match` removes, in source
order. -/
def clean_patterns : List (List Char) :=
  ["(usa)", "(europe)", "(japan)", "(world)", "[!]", "[a]", "[b]",
   "(rev ", "(v1."].map String.toList

/-- Python `s.replace(p, '')`: remove every non-overlapping occurrence
of `p`, scanning left to right.  Fuel `s.length` suffices since every
step consumes at least one character of `s` (all patterns used are
non-empty; an empty pattern acts as the identity here). -/
def replaceAllAux (p : List Char) : Nat → List Char → List Char
  | _, [] => []
  | 0, s => s
  | fuel + 1, c :: rest =>
      if p ≠ [] ∧ p.isPrefixOf (c :: rest) then
        replaceAllAux p fuel ((c :: rest).drop p.length)
      else c :: replaceAllAux p fuel rest

/-- Remove every occurrence of `p` from `s`. -/
def replaceAll (s p : List Char) : List Char := replaceAllAux p s.length s

/-- `s.rsplit('.', 1)[0]`: everything before the last dot, or all of `s`
when it has no dot. -/
def rsplitDot (s : List Char) : List Char :=
  let idx := lastIdxOf '.' s
  if idx < 0 then s else s.take idx.toNat

/-- Normalization `fuzzy_name_match` applies to its first argument (the
filename): lowercase, strip the extension, remove the tag substrings. -/
def normFile (s : List Char) : List Char :=
  clean_patterns.foldl replaceAll (rsplitDot (lowerL s))

/-- Normalization `fuzzy_name_match` applies to its second argument (the
catalog name): lowercase and remove the tag substrings — the extension
strip is applied to the first argument only. -/
def normDb (s : List Char) : List Char :=
  clean_patterns.foldl replaceAll (lowerL s)

/-- `CartridgeChecker.fuzzy_name_match` (the unused `threshold` default
parameter is dropped): similarity of the normalized names. -/
def fuzzy_name_match (filename database_name : List Char) : ℚ :=
  seqScore (normFile filename) (normDb database_name)

/-! ### Catalog data model and `load_database` -/

/-- One catalog record as `load_database` stores it
(`{'name': ..., 'size': ..., 'md5': ..., 'sha1': ...}`; `size` is kept
as the raw attribute string, converted with `int()` at use sites). -/
structure Entry where
  name : List Char
  size : List Char
  md5 : List Char
  sha1 : List Char
deriving DecidableEq

/-- An in-memory catalog: insertion-ordered dict from uppercase crc32
string to entry. -/
abbrev Catalog := List (List Char × Entry)

/-- The per-checker catalog cache `self.databases`. -/
abbrev DBCache := List (String × Catalog)

/-- A `<rom>` element's attributes as `ElementTree` exposes them
(`rom.get(attr)`; `none` when the attribute is absent). -/
structure PyRom where
  crc : Option (List Char)
  size : Option (List Char)
  md5 : Option (List Char)
  sha1 : Option (List Char)

/-- A `<game>` element: its `name` attribute and direct `<rom>`
children. -/
structure PyGame where
  name : Option (List Char)
  roms : List PyRom

/-- State of a system's backing `.dat` file: absent on disk, present but
failing to parse (`ET.parse` raises), or parsed into game records. -/
inductive DbBacking where
  | missing
  | malformed
  | parsed (games : List PyGame)

/-- The database directories, keyed by (is-redump-family, system id):
path resolution `os.path.join(dir, system + ".dat")` is injective per
family, so the map is keyed by the resolved target. -/
abbrev DbFS := Bool × String → DbBacking

/-- The parse loop of `load_database`: every `<rom>` with a non-empty
`crc` is stored under the uppercased crc — a plain dict store, so a
later record with the same crc replaces the earlier one. -/
def build_catalog (games : List PyGame) : Catalog :=
  games.foldl
    (fun db g =>
      let game_name := g.name.getD "Unknown".toList
      g.roms.foldl
        (fun db r =>
          let crc := upperL (r.crc.getD [])
          if crc ≠ [] then
            assocInsert db crc
              { name := game_name, size := r.size.getD "0".toList,
                md5 := upperL (r.md5.getD []), sha1 := upperL (r.sha1.getD []) }
          else db)
        db)
    []

/-- `CartridgeChecker.load_database`: serve from the cache when present;
otherwise resolve the backing file in the family directory, return an
empty catalog (cache untouched) when it is missing or fails to parse,
and cache the parsed catalog on success. -/
def load_database (dbfs : DbFS) (st : DBCache) (system : String) : Catalog × DBCache :=
  match assocLookup st system with
  | some db => (db, st)
  | none =>
    match dbfs (decide (system ∈ REDUMP_SYSTEMS), system) with
    | .missing => ([], st)
    | .malformed => ([], st)
    | .parsed games =>
        let database := build_catalog games
        (database, assocInsert st system database)

/-! ### `verify_rom` -/

/-- Python exception escaping the modelled code (`int()` on a malformed
size string and tuple-unpacking arity mismatches both raise
`ValueError`). -/
inductive PyErr where
  | valueError
deriving DecidableEq

/-- Decimal digit run to a number, `none` when empty or non-digit. -/
def digitsToNat? : List Char → Option Nat
  | [] => none
  | ds =>
      if ds.all Char.isDigit then
        some (ds.foldl (fun n d => 10 * n + (d.toNat - 48)) 0)
      else none

/-- Python `int(s)` on the plain numeral strings the catalogs carry:
optional sign then digits, raising `ValueError` otherwise. -/
def pyIntE (s : List Char) : Except PyErr Int :=
  match s with
  | '-' :: rest =>
      match digitsToNat? rest with
      | some n => .ok (-(n : Int))
      | none => .error .valueError
  | '+' :: rest =>
      match digitsToNat? rest with
      | some n => .ok (n : Int)
      | none => .error .valueError
  | _ =>
      match digitsToNat? s with
      | some n => .ok (n : Int)
      | none => .error .valueError

/-- A verification verdict dict; keys absent from a given verdict are
`none`. -/
structure VResult where
  status : String
  message : String
  filename : List Char
  system : Option String := none
  game_name : Option (List Char) := none
  all_regions : Option (List (List Char)) := none
  crc32 : Option (List Char) := none
  header_size : Option Nat := none
  hack_type : Option String := none
  confidence : Option String := none
deriving DecidableEq

/-- Level-2 digest agreement count: crc plus the md5/sha1 comparisons
guarded by Python truthiness (`if md5 and md5 == entry.get('md5', '')`). -/
def digestMatchCount (crc : List Char) (mo so : Option (List Char))
    (key : List Char) (e : Entry) : Nat :=
  (if crc = key then 1 else 0) +
    (match mo with
     | some m => if m ≠ [] ∧ m = e.md5 then 1 else 0
     | none => 0) +
    (match so with
     | some s => if s ≠ [] ∧ s = e.sha1 then 1 else 0
     | none => 0)

/-- Level 1 of `verify_rom`: names of entries whose crc32 equals the
computed one and whose recorded size (`int(entry.get('size','0'))`,
evaluated only on crc matches) equals the actual file size. -/
def level1_matches (file_size : Nat) (crc : List Char) (db : Catalog) :
    Except PyErr (List (List Char)) :=
  db.foldlM
    (fun acc kv =>
      if crc = kv.1 then do
        let expected ← pyIntE kv.2.size
        pure (if expected = (file_size : Int) then acc ++ [kv.2.name] else acc)
      else pure acc)
    []

/-- Header-stripped rematch: names of entries whose crc equals the
recomputed crc (`None` from a failed reread matches nothing). -/
def header_matches (cleanCrc : Option (List Char)) (db : Catalog) : List (List Char) :=
  db.foldl (fun acc kv => if cleanCrc = some kv.1 then acc ++ [kv.2.name] else acc) []

/-- Level 2 of `verify_rom`: first entry with at least two digest
agreements. -/
def level2_find (crc : List Char) (mo so : Option (List Char)) (db : Catalog) :
    Option (List Char × Entry) :=
  db.find? (fun kv => decide (digestMatchCount crc mo so kv.1 kv.2 ≥ 2))

/-- Level 3 of `verify_rom`: running best similarity over entries whose
recorded size is within 512 bytes of the actual size, keeping scores
that strictly improve the best and reach 0.8. -/
def level3_best (file_size : Nat) (filename : List Char) (db : Catalog) :
    Except PyErr (Option Entry × ℚ) :=
  db.foldlM
    (fun acc kv => do
      let expected ← pyIntE kv.2.size
      let size_diff := ((file_size : Int) - expected).natAbs
      if size_diff ≤ 512 then
        let similarity := fuzzy_name_match filename kv.2.name
        if similarity > acc.2 ∧ similarity ≥ (8 : ℚ) / 10 then pure (some kv.2, similarity)
        else pure acc
      else pure acc)
    (none, 0)

/-- Level 4 of `verify_rom`: first entry with name similarity at least
0.7 (no size constraint). -/
def level4_find (filename : List Char) (db : Catalog) : Option (List Char × Entry) :=
  db.find? (fun kv => decide (fuzzy_name_match filename kv.2.name ≥ (7 : ℚ) / 10))

/-- The label prefix chosen for a hack verdict message (emoji prefixes
of the source strings elided). -/
def hack_label_of (hack_type : Option String) : String :=
  match hack_type with
  | some "translation" => "Translation Patch"
  | some "hack" => "ROM Hack"
  | some "modified" => "Modified ROM"
  | _ => "Modified"

/-- Levels 2–5 of `verify_rom`, the common continuation of both
fall-through paths after the exact-match and header tiers. -/
def verify_levels_2_5 (filename : List Char) (system : String) (file_size : Nat)
    (crc32s : List Char) (mo so : Option (List Char)) (db : Catalog) (st1 : DBCache) :
    Except PyErr (VResult × DBCache) :=
  match level2_find crc32s mo so db with
  | some kv =>
      let cnt := digestMatchCount crc32s mo so kv.1 kv.2
      .ok ({ status := "probable",
             message := "Probable Good Dump (" ++ toString cnt ++ "/3 checksums match)",
             filename := filename, system := some system,
             game_name := some kv.2.name, confidence := some "99%" }, st1)
  | none =>
      match level3_best file_size filename db with
      | .error e => .error e
      | .ok best =>
        match best.1 with
        | some e =>
            .ok ({ status := "likely",
                   message := "Likely Match - Name & Size Match (" ++
                     toString (best.2 * 100).floor ++ "% similar)",
                   filename := filename, system := some system,
                   game_name := some e.name, confidence := some "95%" }, st1)
        | none =>
            match level4_find filename db with
            | some kv =>
                .ok ({ status := "name_match",
                       message := "Name Match - Checksum Differs (" ++
                         toString (fuzzy_name_match filename kv.2.name * 100).floor ++
                         "% similar)",
                       filename := filename, system := some system,
                       game_name := some kv.2.name, confidence := some "80%" }, st1)
            | none =>
                .ok ({ status := "unknown", message := "Unknown ROM (not in database)",
                       filename := filename, system := some system,
                       crc32 := some crc32s }, st1)

/-- `CartridgeChecker.verify_rom`: the tiered decision procedure.
Returns the verdict together with the catalog cache as left by the
internal `load_database` call. -/
def verify_rom (md5f sha1f : List Nat → List Char) (fs : FS) (dbfs : DbFS)
    (st : DBCache) (rom_file : List Char) : Except PyErr (VResult × DBCache) :=
  let filename := basename rom_file
  match detect_system rom_file with
  | none =>
      .ok ({ status := "unknown", message := "Unknown file type",
             filename := filename, system := none }, st)
  | some system =>
    let hck := detect_rom_hack filename
    if hck.1 then
      .ok ({ status := "hack", message := hack_label_of hck.2.1 ++ " Detected",
             filename := filename, system := some system,
             hack_type := hck.2.1, confidence := hck.2.2 }, st)
    else
      let ld := load_database dbfs st system
      let database := ld.1
      let st1 := ld.2
      if database.isEmpty then
        .ok ({ status := "no_database",
               message := "No database available for " ++ system.map Char.toUpper,
               filename := filename, system := some system }, st1)
      else
        let file_size := getsize fs rom_file
        match calculate_checksums md5f sha1f fs rom_file 0 with
        | (none, _, _) =>
            .ok ({ status := "error", message := "Could not read ROM file",
                   filename := filename, system := some system }, st1)
        | (some crc32s, mo, so) =>
          match level1_matches file_size crc32s database with
          | .error e => .error e
          | .ok all_matches =>
            if all_matches ≠ [] then
              if all_matches.length > 1 then
                .ok ({ status := "verified", message := "Verified Good Dump",
                       filename := filename, system := some system,
                       game_name := some (all_matches.headD []),
                       all_regions := some all_matches, crc32 := some crc32s,
                       confidence := some "100%" }, st1)
              else
                .ok ({ status := "verified", message := "Verified Good Dump",
                       filename := filename, system := some system,
                       game_name := some (all_matches.headD []),
                       crc32 := some crc32s, confidence := some "100%" }, st1)
            else
              if has_external_header fs rom_file system then
                let header_size := (assocLookup HEADER_SYSTEMS system).getD 0
                let cs := calculate_checksums md5f sha1f fs rom_file header_size
                let amc := header_matches cs.1 database
                if amc ≠ [] then
                  if amc.length > 1 then
                    .ok ({ status := "has_header",
                           message := "Has External Header (fixable)",
                           filename := filename, system := some system,
                           game_name := some (amc.headD []), all_regions := some amc,
                           crc32 := cs.1, header_size := some header_size,
                           confidence := some "100%" }, st1)
                  else
                    .ok ({ status := "has_header",
                           message := "Has External Header (fixable)",
                           filename := filename, system := some system,
                           game_name := some (amc.headD []),
                           crc32 := cs.1, header_size := some header_size,
                           confidence := some "100%" }, st1)
                else verify_levels_2_5 filename system file_size crc32s mo so database st1
              else verify_levels_2_5 filename system file_size crc32s mo so database st1

/-! ### `check_folder` (cartridge batch scan) -/

/-- The counter update `check_folder` performs for one verdict status:
verified/probable/likely bump `verified`, `has_header` bumps its own
counter, hack/name_match/unknown/no_database bump `unknown`, anything
else (notably `error`) bumps `failed`. -/
def stepCounters (status : String) (v h u f : Nat) : Nat × Nat × Nat × Nat :=
  if status = "verified" then (v + 1, h, u, f)
  else if status = "has_header" then (v, h + 1, u, f)
  else if status = "probable" then (v + 1, h, u, f)
  else if status = "likely" then (v + 1, h, u, f)
  else if status = "hack" then (v, h, u + 1, f)
  else if status = "name_match" then (v, h, u + 1, f)
  else if status = "unknown" then (v, h, u + 1, f)
  else if status = "no_database" then (v, h, u + 1, f)
  else (v, h, u, f + 1)

/-- The verification loop of `CartridgeChecker.check_folder`:
cancellation is sampled before each file (the 1-based `enumerate`
index), every verdict is appended to the results and routed to exactly
one counter.  Progress/log callbacks do not affect the returned data and
are not modelled. -/
def checkLoop (md5f sha1f : List Nat → List Char) (fs : FS) (dbfs : DbFS)
    (cancel : Nat → Bool) :
    List (List Char) → Nat → Nat → Nat → Nat → Nat → List VResult → DBCache →
    Except PyErr (Nat × Nat × Nat × Nat × List VResult × DBCache)
  | [], _, v, h, u, f, results, st => .ok (v, h, u, f, results, st)
  | rom :: rest, index, v, h, u, f, results, st =>
      if cancel index then .ok (v, h, u, f, results, st)
      else
        match verify_rom md5f sha1f fs dbfs st rom with
        | .error e => .error e
        | .ok rs =>
            let c := stepCounters rs.1.status v h u f
            checkLoop md5f sha1f fs dbfs cancel rest (index + 1)
              c.1 c.2.1 c.2.2.1 c.2.2.2 (results ++ [rs.1]) rs.2

/-- `CartridgeChecker.check_folder` on the candidate list produced by
the directory walk (the walk itself and the CUE/BIN exclusion are OS
interaction abstracted into the input list): returns the
`(verified, has_header, unknown, failed, results)` counters plus the
final catalog cache. -/
def check_folder (md5f sha1f : List Nat → List Char) (fs : FS) (dbfs : DbFS)
    (rom_files : List (List Char)) (cancel : Nat → Bool) (st : DBCache) :
    Except PyErr (Nat × Nat × Nat × Nat × List VResult × DBCache) :=
  if rom_files.isEmpty then .ok (0, 0, 0, 0, [], st)
  else checkLoop md5f sha1f fs dbfs cancel rom_files 1 0 0 0 0 [] st

/-! ### `ROMHealthChecker.check_folder` (`src/core/rom_health.py`) -/

/-- A Python value inside the tuple `check_folder` returns, as seen by
the caller's unpacking assignment. -/
inductive PyVal where
  | pint (n : Nat)
  | plist (l : List VResult)
deriving DecidableEq

/-- The tuple value of the `return verified, has_header, unknown,
failed, results` statement closing `CartridgeChecker.check_folder` —
five elements. -/
def cart_check_folder_py (md5f sha1f : List Nat → List Char) (fs : FS) (dbfs : DbFS)
    (rom_files : List (List Char)) (cancel : Nat → Bool) (st : DBCache) :
    Except PyErr (List PyVal) :=
  match check_folder md5f sha1f fs dbfs rom_files cancel st with
  | .error e => .error e
  | .ok r => .ok [.pint r.1, .pint r.2.1, .pint r.2.2.1, .pint r.2.2.2.1, .plist r.2.2.2.2.1]

/-- The results dictionary `ROMHealthChecker.check_folder` builds (the
`cart_hacks` key is absent from the initial dict and only ever assigned
in the cartridge phase; it is 0 here until then). -/
structure HealthResults where
  chd_verified : Nat
  chd_failed : Nat
  cue_verified : Nat
  cue_failed : Nat
  cart_verified : Nat
  cart_has_header : Nat
  cart_hacks : Nat
  cart_unknown : Nat
  cart_failed : Nat
  all_results : List VResult
deriving DecidableEq

/-- `ROMHealthChecker.check_folder`: the CHD and CUE/BIN phases drive an
external conversion tool and are abstracted as their result triples
`(verified, failed, results)`; `cancel1`/`cancel2` are the cancellation
samples between phases.  The cartridge phase unpacks the checker's
return tuple into SIX names
(`cart_verified, cart_header, cart_hacks, cart_unknown, cart_failed,
cart_results`); a tuple of any other arity makes that assignment raise
`ValueError`. -/
def rom_health_check_folder (chd cue : Nat × Nat × List VResult)
    (cancel1 cancel2 : Bool) (md5f sha1f : List Nat → List Char) (fs : FS)
    (dbfs : DbFS) (rom_files : List (List Char)) (cancel : Nat → Bool)
    (st : DBCache) : Except PyErr HealthResults :=
  let r1 : HealthResults :=
    { chd_verified := chd.1, chd_failed := chd.2.1, cue_verified := 0,
      cue_failed := 0, cart_verified := 0, cart_has_header := 0, cart_hacks := 0,
      cart_unknown := 0, cart_failed := 0, all_results := chd.2.2 }
  if cancel1 then .ok r1
  else
    let r2 := { r1 with cue_verified := cue.1, cue_failed := cue.2.1,
                        all_results := r1.all_results ++ cue.2.2 }
    if cancel2 then .ok r2
    else
      match cart_check_folder_py md5f sha1f fs dbfs rom_files cancel st with
      | .error e => .error e
      | .ok t =>
        match t with
        | [.pint cv, .pint ch, .pint chk, .pint cu, .pint cf, .plist cr] =>
            .ok { r2 with cart_verified := cv, cart_has_header := ch,
                          cart_hacks := chk, cart_unknown := cu, cart_failed := cf,
                          all_results := r2.all_results ++ cr }
        | _ => .error .valueError

/-! ### Concrete instances used to exercise the model -/

/-- A catalog backing store whose nes file holds two games sharing the
crc32 `D202EF8D` — the CRC32 of the one-byte file `00` — with size 1. -/
def gamesC1 : List PyGame :=
  [⟨some "Game A".toList, [⟨some "D202EF8D".toList, some "1".toList, none, none⟩]⟩,
   ⟨some "Game B".toList, [⟨some "D202EF8D".toList, some "1".toList, none, none⟩]⟩]

/-- Backing store serving `gamesC1` for the nes catalog. -/
def dbfsC1 : DbFS := fun k => if k = (false, "nes") then .parsed gamesC1 else .missing

/-- A one-game nes backing store used by the error-path witnesses. -/
def gamesW : List PyGame :=
  [⟨some "g".toList, [⟨some "AA".toList, some "1".toList, none, none⟩]⟩]

/-- Backing store serving `gamesW` everywhere. -/
def dbfsW : DbFS := fun _ => .parsed gamesW

/-- A filesystem in which every file fails to open or read. -/
def fsUnreadable : FS := fun _ => .unreadable 5

/-- A one-entry nes catalog whose entry agrees with the md5/sha1 the
witness digest functions produce and whose crc32 `ZZZZZZZZ` can never
equal a computed (hex) crc32. -/
def gamesC4 : List PyGame :=
  [⟨some "game".toList,
    [⟨some "ZZZZZZZZ".toList, some "2".toList, some "aa".toList, some "bb".toList⟩]⟩]

/-- Backing store serving `gamesC4` everywhere. -/
def dbfsC4 : DbFS := fun _ => .parsed gamesC4

/-! ### Lemmas about the sequence-similarity core -/

theorem commonPrefixLen_le_left : ∀ a b : List Char, commonPrefixLen a b ≤ a.length
  | [], _ => by simp [commonPrefixLen]
  | _ :: _, [] => by simp [commonPrefixLen]
  | a :: as, b :: bs => by
      by_cases h : a = b
      · simpa [commonPrefixLen, h] using commonPrefixLen_le_left as bs
      · simp [commonPrefixLen, h]

theorem commonPrefixLen_le_right : ∀ a b : List Char, commonPrefixLen a b ≤ b.length
  | [], _ => by simp [commonPrefixLen]
  | _ :: _, [] => by simp [commonPrefixLen]
  | a :: as, b :: bs => by
      by_cases h : a = b
      · simpa [commonPrefixLen, h] using commonPrefixLen_le_right as bs
      · simp [commonPrefixLen, h]

theorem commonPrefixLen_self : ∀ a : List Char, commonPrefixLen a a = a.length
  | [] => rfl
  | a :: as => by simp [commonPrefixLen, commonPrefixLen_self as]

theorem mem_flmCands {a b : List Char} {x : Nat × Nat × Nat} (hx : x ∈ flmCands a b) :
    x.1 + x.2.2 ≤ a.length ∧ x.2.1 + x.2.2 ≤ b.length := by
  simp only [flmCands, List.mem_flatMap, List.mem_map, List.mem_range] at hx
  obtain ⟨i, hi, j, hj, rfl⟩ := hx
  refine ⟨?_, ?_⟩
  · have h := commonPrefixLen_le_left (a.drop i) (b.drop j)
    simp only [List.length_drop] at h
    simp only []
    omega
  · have h := commonPrefixLen_le_right (a.drop i) (b.drop j)
    simp only [List.length_drop] at h
    simp only []
    omega

theorem foldl_pickBest_mem : ∀ (l : List (Nat × Nat × Nat)) (s : Nat × Nat × Nat),
    l.foldl pickBest s = s ∨ l.foldl pickBest s ∈ l
  | [], s => Or.inl rfl
  | c :: t, s => by
      rcases foldl_pickBest_mem t (pickBest s c) with h | h
      · simp only [List.foldl_cons, h]
        unfold pickBest
        by_cases hc : c.2.2 > s.2.2 <;> simp [hc]
      · exact Or.inr (by simp [List.foldl_cons, List.mem_cons]; right; exact h)

theorem foldl_pickBest_ge_init : ∀ (l : List (Nat × Nat × Nat)) (s : Nat × Nat × Nat),
    s.2.2 ≤ (l.foldl pickBest s).2.2
  | [], s => le_refl _
  | c :: t, s => by
      have h1 : s.2.2 ≤ (pickBest s c).2.2 := by
        unfold pickBest
        split <;> omega
      exact le_trans h1 (foldl_pickBest_ge_init t (pickBest s c))

theorem foldl_pickBest_ge : ∀ (l : List (Nat × Nat × Nat)) (s d : Nat × Nat × Nat),
    d ∈ l → d.2.2 ≤ (l.foldl pickBest s).2.2
  | [], _, _, hd => absurd hd (List.not_mem_nil _)
  | c :: t, s, d, hd => by
      rcases List.mem_cons.mp hd with rfl | hmem
      · have h1 : d.2.2 ≤ (pickBest s d).2.2 := by
          unfold pickBest
          split <;> omega
        exact le_trans h1 (foldl_pickBest_ge_init t (pickBest s d))
      · exact foldl_pickBest_ge t (pickBest s c) d hmem

theorem findLongestMatch_bounds (a b : List Char) :
    (findLongestMatch a b).1 + (findLongestMatch a b).2.2 ≤ a.length ∧
      (findLongestMatch a b).2.1 + (findLongestMatch a b).2.2 ≤ b.length := by
  unfold findLongestMatch
  rcases foldl_pickBest_mem (flmCands a b) (0, 0, 0) with h | h
  · rw [h]; exact ⟨Nat.zero_le _, Nat.zero_le _⟩
  · exact mem_flmCands h

theorem matchingTotalF_le_min :
    ∀ (fuel : Nat) (a b : List Char),
      matchingTotalF fuel a b ≤ min a.length b.length
  | 0, _, _ => Nat.zero_le _
  | fuel + 1, a, b => by
      have hb := findLongestMatch_bounds a b
      unfold matchingTotalF
      by_cases hk : (findLongestMatch a b).2.2 = 0
      · simp [hk]
      · simp only [hk, if_false]
        have h1 := matchingTotalF_le_min fuel (a.take (findLongestMatch a b).1)
          (b.take (findLongestMatch a b).2.1)
        have h2 := matchingTotalF_le_min fuel
          (a.drop ((findLongestMatch a b).1 + (findLongestMatch a b).2.2))
          (b.drop ((findLongestMatch a b).2.1 + (findLongestMatch a b).2.2))
        simp only [List.length_take, List.length_drop] at h1 h2
        omega

theorem matchingTotal_le (a b : List Char) :
    2 * matchingTotal a b ≤ a.length + b.length := by
  have h := matchingTotalF_le_min (a.length + b.length) a b
  unfold matchingTotal
  omega

theorem seqScore_nonneg (a b : List Char) : 0 ≤ seqScore a b := by
  unfold seqScore
  by_cases h : a.length + b.length = 0
  · simp [h]
  · simp only [h, if_false]
    positivity

theorem seqScore_le_one (a b : List Char) : seqScore a b ≤ 1 := by
  unfold seqScore
  by_cases h : a.length + b.length = 0
  · simp [h]
  · simp only [h, if_false]
    rw [div_le_one (by exact_mod_cast Nat.pos_of_ne_zero h)]
    have := matchingTotal_le a b
    exact_mod_cast this

theorem findLongestMatch_self {a : List Char} (ha : a ≠ []) :
    findLongestMatch a a = (0, 0, a.length) := by
  have hmem : ((0, 0, a.length) : Nat × Nat × Nat) ∈ flmCands a a := by
    simp only [flmCands, List.mem_flatMap, List.mem_map, List.mem_range]
    exact ⟨0, List.length_pos.mpr ha, 0, List.length_pos.mpr ha, by
      simp [commonPrefixLen_self]⟩
  have hge : a.length ≤ (findLongestMatch a a).2.2 :=
    foldl_pickBest_ge (flmCands a a) (0, 0, 0) _ hmem
  have hb := findLongestMatch_bounds a a
  have h1 : (findLongestMatch a a).1 = 0 := by omega
  have h2 : (findLongestMatch a a).2.1 = 0 := by omega
  have h3 : (findLongestMatch a a).2.2 = a.length := by omega
  calc findLongestMatch a a
      = ((findLongestMatch a a).1, (findLongestMatch a a).2.1,
          (findLongestMatch a a).2.2) := rfl
    _ = (0, 0, a.length) := by rw [h1, h2, h3]

theorem matchingTotalF_nil : ∀ fuel : Nat, matchingTotalF fuel [] [] = 0
  | 0 => rfl
  | _ + 1 => rfl

theorem matchingTotal_self (a : List Char) : matchingTotal a a = a.length := by
  rcases eq_or_ne a [] with rfl | ha
  · rfl
  · have hpos : 0 < a.length := List.length_pos.mpr ha
    obtain ⟨m, hm⟩ : ∃ m, a.length + a.length = m + 1 := ⟨a.length + a.length - 1, by omega⟩
    unfold matchingTotal
    rw [hm]
    unfold matchingTotalF
    rw [findLongestMatch_self ha]
    have hcond : ¬ (((0, 0, a.length) : Nat × Nat × Nat).2.2 = 0) := by
      simp only []
      omega
    rw [if_neg hcond]
    simp only [List.take_zero, Nat.zero_add, List.drop_length, matchingTotalF_nil]
    omega

theorem seqScore_self (a : List Char) : seqScore a a = 1 := by
  unfold seqScore
  rcases eq_or_ne a [] with rfl | ha
  · simp
  · have hpos : 0 < a.length := List.length_pos.mpr ha
    have hne : a.length + a.length ≠ 0 := by omega
    simp only [hne, if_false, matchingTotal_self]
    have hQ : ((a.length : ℚ)) ≠ 0 := by exact_mod_cast (by omega : a.length ≠ 0)
    push_cast
    field_simp
    ring

/-! ### Claim C6 — fuzzy similarity score -/

/-- C6 (amended): `fuzzy_name_match` always returns a score in the
closed interval [0, 1], and two names identical after their respective
normalizations score exactly 1.0.  The symmetry conjunct of the original
claim is dropped: the extension strip applies to the first argument
only, so the similarity is not symmetric (see the counterexample). -/
theorem c6_fuzzy_score_bounds_and_identity (a b : List Char) :
    0 ≤ fuzzy_name_match a b ∧ fuzzy_name_match a b ≤ 1 ∧
      (normFile a = normDb b → fuzzy_name_match a b = 1) := by
  unfold fuzzy_name_match
  refine ⟨seqScore_nonneg _ _, seqScore_le_one _ _, fun h => ?_⟩
  rw [h]
  exact seqScore_self _

/-- C6 counterexample: `fuzzy_name_match` is not symmetric.  Against the
catalog name "x", the filename "x.y" scores 1 (its extension is
stripped), but with the arguments swapped the score is 1/2 — the second
argument keeps its ".y". -/
theorem c6_symmetry_counterexample :
    fuzzy_name_match "x.y".toList "x".toList = 1 ∧
      fuzzy_name_match "x".toList "x.y".toList = 1 / 2 ∧
      fuzzy_name_match "x.y".toList "x".toList ≠
        fuzzy_name_match "x".toList "x.y".toList := by
  have e1 : fuzzy_name_match "x.y".toList "x".toList = 1 := by
    simp only [fuzzy_name_match, seqScore,
      show matchingTotal (normFile "x.y".toList) (normDb "x".toList) = 1 from by decide,
      show (normFile "x.y".toList).length = 1 from by decide,
      show (normDb "x".toList).length = 1 from by decide]
    norm_num
  have e2 : fuzzy_name_match "x".toList "x.y".toList = 1 / 2 := by
    simp only [fuzzy_name_match, seqScore,
      show matchingTotal (normFile "x".toList) (normDb "x.y".toList) = 1 from by decide,
      show (normFile "x".toList).length = 1 from by decide,
      show (normDb "x.y".toList).length = 3 from by decide]
    norm_num
  refine ⟨e1, e2, ?_⟩
  rw [e1, e2]
  norm_num

/-- Witness for the amended C6 theorem at a concrete input whose
normalized forms coincide. -/
theorem c6_fuzzy_score_bounds_and_identity_witness :
    0 ≤ fuzzy_name_match "mario.nes".toList "mario".toList ∧
      fuzzy_name_match "mario.nes".toList "mario".toList ≤ 1 ∧
      fuzzy_name_match "mario.nes".toList "mario".toList = 1 :=
  ⟨(c6_fuzzy_score_bounds_and_identity _ _).1,
   (c6_fuzzy_score_bounds_and_identity _ _).2.1,
   (c6_fuzzy_score_bounds_and_identity _ _).2.2 (by decide)⟩

/-! ### Claim C5 — copier-header heuristic -/

/-- C5: for snes (1024-byte granularity, 512-byte header) a file of size
`1024*N + 512` reports a header and a file of size exactly `1024*N` does
not; a system absent from the header table, or present with header size
0, never reports a header for any file. -/
theorem c5_header_detection :
    (∀ (fs : FS) (f : List Char) (N : Nat), getsize fs f = 1024 * N + 512 →
        has_external_header fs f "snes" = true) ∧
      (∀ (fs : FS) (f : List Char) (N : Nat), getsize fs f = 1024 * N →
        has_external_header fs f "snes" = false) ∧
      (∀ (fs : FS) (f : List Char) (system : String),
        assocLookup HEADER_SYSTEMS system = none ∨
          assocLookup HEADER_SYSTEMS system = some 0 →
        has_external_header fs f system = false) := by
  refine ⟨?_, ?_, ?_⟩
  · intro fs f N h
    have he : has_external_header fs f "snes" = decide (getsize fs f % 1024 = 512) := rfl
    rw [he, h, decide_eq_true_eq]
    omega
  · intro fs f N h
    have he : has_external_header fs f "snes" = decide (getsize fs f % 1024 = 512) := rfl
    rw [he, h, decide_eq_false_iff_not]
    omega
  · intro fs f system h
    unfold has_external_header
    rcases h with h | h <;> simp [h]

/-- Witness for C5 at concrete sizes 1536 = 1024+512 and 2048 = 2*1024,
and at the header-size-0 system "gb". -/
theorem c5_header_detection_witness :
    has_external_header (fun _ => .unreadable 1536) "a.sfc".toList "snes" = true ∧
      has_external_header (fun _ => .unreadable 2048) "a.sfc".toList "snes" = false ∧
      has_external_header (fun _ => .unreadable 1536) "a.gb".toList "gb" = false :=
  ⟨c5_header_detection.1 _ _ 1 (by decide),
   c5_header_detection.2.1 _ _ 2 (by decide),
   c5_header_detection.2.2 _ _ "gb" (Or.inr (by decide))⟩

/-! ### Claim C9 — skipping past end of file -/

/-- C9: when `skip_bytes` is at least the file's size, the seek lands at
or past end of file, every read returns the empty stream, and
`calculate_checksums` returns the digests of zero bytes — crc32
"00000000" plus the uppercased md5/sha1 hexdigests of the empty stream —
rather than an error. -/
theorem c9_skip_past_eof (md5f sha1f : List Nat → List Char) (fs : FS)
    (f : List Char) (bytes : List Nat) (skip : Nat)
    (hr : fs f = .readable bytes) (hs : bytes.length ≤ skip) :
    calculate_checksums md5f sha1f fs f skip =
      (some "00000000".toList, some (upperL (md5f [])), some (upperL (sha1f []))) := by
  unfold calculate_checksums
  rw [hr]
  have hd : bytes.drop skip = [] := List.drop_eq_nil_of_le hs
  simp only [hd]
  rfl

/-- Witness for C9: a 3-byte readable file with `skip_bytes = 5`. -/
theorem c9_skip_past_eof_witness :
    calculate_checksums (fun _ => "m".toList) (fun _ => "s".toList)
        (fun _ => .readable [1, 2, 3]) "a.nes".toList 5 =
      (some "00000000".toList, some "M".toList, some "S".toList) :=
  c9_skip_past_eof (fun _ => "m".toList) (fun _ => "s".toList)
    (fun _ => .readable [1, 2, 3]) "a.nes".toList [1, 2, 3] 5 rfl (by decide)

/-! ### Claim C3 — translation markers short-circuit verification -/

/-- A filename containing any translation marker is classified as a
translation (the translation group is checked first). -/
theorem detect_rom_hack_translation (filename : List Char)
    (h : ∃ p ∈ translation_patterns, containsSub (lowerL filename) p = true) :
    detect_rom_hack filename = (true, some "translation", some "95%") := by
  have hs : (translation_patterns.find? (fun p => containsSub (lowerL filename) p)).isSome := by
    rw [List.find?_isSome]
    obtain ⟨p, hp, hc⟩ := h
    exact ⟨p, hp, hc⟩
  obtain ⟨q, hq⟩ := Option.isSome_iff_exists.mp hs
  simp only [detect_rom_hack, hq]

/-- The hack short-circuit branch of `verify_rom`: a flagged filename
returns immediately with the incoming cache. -/
theorem verify_rom_hack (md5f sha1f : List Nat → List Char) (fs : FS) (dbfs : DbFS)
    (st : DBCache) (rom_file : List Char) (system : String)
    (ht hc : Option String) (hsys : detect_system rom_file = some system)
    (hd : detect_rom_hack (basename rom_file) = (true, ht, hc)) :
    verify_rom md5f sha1f fs dbfs st rom_file =
      .ok ({ status := "hack", message := hack_label_of ht ++ " Detected",
             filename := basename rom_file, system := some system,
             hack_type := ht, confidence := hc }, st) := by
  unfold verify_rom
  rw [hsys]
  simp [hd]

/-- C3: whenever the extension maps to a system and the filename carries
a translation marker, `verify_rom` verdicts `hack` with type
`translation` — for every filesystem, catalog store, digest function and
cache alike, so in particular even when an exact-matching catalog entry
for the file's crc32 and size exists; neither the catalog nor the file
content is consulted and the catalog cache is returned untouched. -/
theorem c3_translation_short_circuit (rom_file : List Char) (system : String)
    (hsys : detect_system rom_file = some system)
    (htr : ∃ p ∈ translation_patterns, containsSub (lowerL (basename rom_file)) p = true) :
    ∀ (md5f sha1f : List Nat → List Char) (fs : FS) (dbfs : DbFS) (st : DBCache),
      verify_rom md5f sha1f fs dbfs st rom_file =
        .ok ({ status := "hack", message := hack_label_of (some "translation") ++ " Detected",
               filename := basename rom_file, system := some system,
               hack_type := some "translation", confidence := some "95%" }, st) :=
  fun md5f sha1f fs dbfs st =>
    verify_rom_hack md5f sha1f fs dbfs st rom_file system _ _ hsys
      (detect_rom_hack_translation _ htr)

/-- Witness for C3: "mario [T+Eng].nes" on a filesystem and catalog
where the file would otherwise verify is still classified as a
translation hack, with the cache unchanged. -/
theorem c3_translation_short_circuit_witness :
    verify_rom (fun _ => []) (fun _ => []) (fun _ => .readable [0]) (fun _ => .missing)
        [] "mario [T+Eng].nes".toList =
      .ok ({ status := "hack", message := hack_label_of (some "translation") ++ " Detected",
             filename := basename "mario [T+Eng].nes".toList, system := some "nes",
             hack_type := some "translation", confidence := some "95%" }, []) :=
  c3_translation_short_circuit "mario [T+Eng].nes".toList "nes" (by decide)
    ⟨"[t+".toList, by decide, by decide⟩ _ _ _ _ _

/-! ### Claim C10 — catalog cache population invariants -/

/-- C10: (i) with the system uncached, a missing backing file yields an
empty catalog and an unchanged cache; (ii) likewise a malformed backing
file; (iii) a cached system is served from the cache with the state
untouched (so a stored entry is never replaced or invalidated by the
only code that writes the cache); (iv) whenever `load_database` does
change the cache, the backing file parsed successfully and the new cache
is exactly the old one plus the parsed catalog under that system — so an
uncached system is re-resolved against the backing store on every call. -/
theorem c10_cache_only_populated_on_success :
    (∀ (dbfs : DbFS) (st : DBCache) (system : String),
        assocLookup st system = none →
        dbfs (decide (system ∈ REDUMP_SYSTEMS), system) = .missing →
        load_database dbfs st system = ([], st)) ∧
      (∀ (dbfs : DbFS) (st : DBCache) (system : String),
        assocLookup st system = none →
        dbfs (decide (system ∈ REDUMP_SYSTEMS), system) = .malformed →
        load_database dbfs st system = ([], st)) ∧
      (∀ (dbfs : DbFS) (st : DBCache) (system : String) (db : Catalog),
        assocLookup st system = some db →
        load_database dbfs st system = (db, st)) ∧
      (∀ (dbfs : DbFS) (st : DBCache) (system : String),
        (load_database dbfs st system).2 ≠ st →
        ∃ games, dbfs (decide (system ∈ REDUMP_SYSTEMS), system) = .parsed games ∧
          load_database dbfs st system =
            (build_catalog games, assocInsert st system (build_catalog games))) := by
  refine ⟨?_, ?_, ?_, ?_⟩
  · intro dbfs st system hc hb
    unfold load_database
    rw [hc, hb]
  · intro dbfs st system hc hb
    unfold load_database
    rw [hc, hb]
  · intro dbfs st system db hc
    unfold load_database
    rw [hc]
  · intro dbfs st system hch
    cases hc : assocLookup st system with
    | some db =>
        have he : load_database dbfs st system = (db, st) := by
          unfold load_database; rw [hc]
        rw [he] at hch
        exact absurd rfl hch
    | none =>
      cases hb : dbfs (decide (system ∈ REDUMP_SYSTEMS), system) with
      | missing =>
          have he : load_database dbfs st system = ([], st) := by
            unfold load_database; rw [hc, hb]
          rw [he] at hch
          exact absurd rfl hch
      | malformed =>
          have he : load_database dbfs st system = ([], st) := by
            unfold load_database; rw [hc, hb]
          rw [he] at hch
          exact absurd rfl hch
      | parsed games =>
          exact ⟨games, rfl, by unfold load_database; rw [hc, hb]⟩

/-- Witness for C10 at the "nes" system: missing store, malformed store,
a pre-cached empty catalog, and a successful parse that extends the
cache. -/
theorem c10_cache_only_populated_on_success_witness :
    load_database (fun _ => .missing) [] "nes" = ([], []) ∧
      load_database (fun _ => .malformed) [] "nes" = ([], []) ∧
      load_database (fun _ => .missing) [("nes", [])] "nes" = ([], [("nes", [])]) ∧
      (∃ games, (fun _ => DbBacking.parsed ([] : List PyGame))
          (decide ("nes" ∈ REDUMP_SYSTEMS), "nes") = .parsed games ∧
        load_database (fun _ => .parsed ([] : List PyGame)) [] "nes" =
          (build_catalog games, assocInsert [] "nes" (build_catalog games))) :=
  ⟨c10_cache_only_populated_on_success.1 _ _ _ rfl rfl,
   c10_cache_only_populated_on_success.2.1 _ _ _ rfl rfl,
   c10_cache_only_populated_on_success.2.2.1 _ _ _ [] rfl,
   c10_cache_only_populated_on_success.2.2.2 (fun _ => .parsed []) [] "nes" (by decide)⟩

/-! ### Claim C7 — unreadable files become `error` verdicts -/

/-- C7: (i) an unreadable file makes `calculate_checksums` return the
`(None, None, None)` sentinel instead of raising; (ii) `verify_rom`
turns that sentinel into an `error`-status verdict (when the pipeline
reaches checksumming: known system, no hack marker, non-empty catalog);
(iii) the batch loop routes an `error` verdict to the `failed` counter
and continues with the remaining files. -/
theorem c7_unreadable_error_path :
    (∀ (md5f sha1f : List Nat → List Char) (fs : FS) (f : List Char) (skip n : Nat),
        fs f = .unreadable n →
        calculate_checksums md5f sha1f fs f skip = (none, none, none)) ∧
      (∀ (md5f sha1f : List Nat → List Char) (fs : FS) (dbfs : DbFS) (st : DBCache)
          (f : List Char) (system : String) (db : Catalog) (st1 : DBCache) (n : Nat),
        detect_system f = some system →
        (detect_rom_hack (basename f)).1 = false →
        load_database dbfs st system = (db, st1) →
        db ≠ [] →
        fs f = .unreadable n →
        verify_rom md5f sha1f fs dbfs st f =
          .ok ({ status := "error", message := "Could not read ROM file",
                 filename := basename f, system := some system }, st1)) ∧
      (∀ (md5f sha1f : List Nat → List Char) (fs : FS) (dbfs : DbFS) (cancel : Nat → Bool)
          (f : List Char) (rest : List (List Char)) (idx v h u fl : Nat)
          (res : List VResult) (st st1 : DBCache) (r : VResult),
        verify_rom md5f sha1f fs dbfs st f = .ok (r, st1) →
        r.status = "error" →
        cancel idx = false →
        checkLoop md5f sha1f fs dbfs cancel (f :: rest) idx v h u fl res st =
          checkLoop md5f sha1f fs dbfs cancel rest (idx + 1) v h u (fl + 1)
            (res ++ [r]) st1) := by
  refine ⟨?_, ?_, ?_⟩
  · intro md5f sha1f fs f skip n hfs
    unfold calculate_checksums
    rw [hfs]
  · intro md5f sha1f fs dbfs st f system db st1 n hsys hhack hld hdb hfs
    have hcs : calculate_checksums md5f sha1f fs f 0 = (none, none, none) := by
      unfold calculate_checksums
      rw [hfs]
    have hne : db.isEmpty = false := by
      cases db with
      | nil => exact absurd rfl hdb
      | cons a l => rfl
    unfold verify_rom
    rw [hsys]
    simp only [hhack, Bool.false_eq_true, if_false, hld, hne, hcs]
  · intro md5f sha1f fs dbfs cancel f rest idx v h u fl res st st1 r hv hst hcancel
    have hstep : stepCounters r.status v h u fl = (v, h, u, fl + 1) := by
      rw [hst]
      simp [stepCounters]
    simp only [checkLoop, hcancel, Bool.false_eq_true, if_false, hv, hstep]

/-- Witness for C7: `"a.nes"` on a filesystem where every open fails,
against a one-game nes catalog. -/
theorem c7_unreadable_error_path_witness :
    calculate_checksums (fun _ => []) (fun _ => []) fsUnreadable "a.nes".toList 0 =
        (none, none, none) ∧
      verify_rom (fun _ => []) (fun _ => []) fsUnreadable dbfsW [] "a.nes".toList =
        .ok ({ status := "error", message := "Could not read ROM file",
               filename := basename "a.nes".toList, system := some "nes" },
             assocInsert [] "nes" (build_catalog gamesW)) ∧
      checkLoop (fun _ => []) (fun _ => []) fsUnreadable dbfsW (fun _ => false)
          ["a.nes".toList] 1 0 0 0 0 [] [] =
        checkLoop (fun _ => []) (fun _ => []) fsUnreadable dbfsW (fun _ => false)
          [] 2 0 0 0 1
          [{ status := "error", message := "Could not read ROM file",
             filename := basename "a.nes".toList, system := some "nes" }]
          (assocInsert [] "nes" (build_catalog gamesW)) :=
  ⟨c7_unreadable_error_path.1 _ _ fsUnreadable "a.nes".toList 0 5 rfl,
   c7_unreadable_error_path.2.1 _ _ fsUnreadable dbfsW [] "a.nes".toList "nes"
     (build_catalog gamesW) (assocInsert [] "nes" (build_catalog gamesW)) 5
     (by decide) (by decide) rfl (by decide) rfl,
   c7_unreadable_error_path.2.2 (fun _ => []) (fun _ => []) fsUnreadable dbfsW
     (fun _ => false) "a.nes".toList [] 1 0 0 0 0 [] []
     (assocInsert [] "nes" (build_catalog gamesW))
     { status := "error", message := "Could not read ROM file",
       filename := basename "a.nes".toList, system := some "nes" }
     (c7_unreadable_error_path.2.1 _ _ fsUnreadable dbfsW [] "a.nes".toList "nes"
       (build_catalog gamesW) (assocInsert [] "nes" (build_catalog gamesW)) 5
       (by decide) (by decide) rfl (by decide) rfl)
     rfl rfl⟩

/-! ### Claim C8 — counters partition the results -/

/-- One loop step adds exactly one to the combined counters. -/
theorem stepCounters_sum (status : String) (v h u f : Nat) :
    (stepCounters status v h u f).1 + (stepCounters status v h u f).2.1 +
        (stepCounters status v h u f).2.2.1 + (stepCounters status v h u f).2.2.2 =
      v + h + u + f + 1 := by
  unfold stepCounters
  split_ifs <;> simp_arith

/-- The loop preserves `verified + has_header + unknown + failed =
results.length` from any state satisfying it, and in particular at every
intermediate state, each being the loop's value on a prefix of the file
list. -/
theorem checkLoop_invariant (md5f sha1f : List Nat → List Char) (fs : FS) (dbfs : DbFS)
    (cancel : Nat → Bool) (files : List (List Char)) :
    ∀ (idx v h u f : Nat) (res : List VResult) (st : DBCache)
      (out : Nat × Nat × Nat × Nat × List VResult × DBCache),
      checkLoop md5f sha1f fs dbfs cancel files idx v h u f res st = .ok out →
      v + h + u + f = res.length →
      out.1 + out.2.1 + out.2.2.1 + out.2.2.2.1 = out.2.2.2.2.1.length := by
  induction files with
  | nil =>
      intro idx v h u f res st out hok hinv
      simp only [checkLoop] at hok
      injection hok with hok
      subst hok
      simpa using hinv
  | cons rom rest IH =>
      intro idx v h u f res st out hok hinv
      simp only [checkLoop] at hok
      by_cases hc : cancel idx = true
      · rw [if_pos hc] at hok
        injection hok with hok
        subst hok
        simpa using hinv
      · rw [if_neg hc] at hok
        cases hv : verify_rom md5f sha1f fs dbfs st rom with
        | error e => rw [hv] at hok; simp at hok
        | ok rs =>
            rw [hv] at hok
            refine IH _ _ _ _ _ _ _ _ hok ?_
            have hstep := stepCounters_sum rs.1.status v h u f
            simp only [List.length_append, List.length_cons, List.length_nil]
            omega

/-- C8: (i) the per-status routing — `verified`, `probable` and `likely`
bump the verified counter, `has_header` its own, `hack`, `name_match`,
`unknown` and `no_database` the unknown counter, and every other status
(the `error` verdict) the failed counter — so each verdict increments
exactly one counter; (ii) whenever the loop completes from a state where
`verified + has_header + unknown + failed` equals the number of results,
the final state satisfies the same equation (the scan starts at zeros
with no results, and every intermediate state is the loop's value on a
prefix of the file list, so the invariant holds after each file);
(iii) the equation holds of every completed `check_folder` scan. -/
theorem c8_counters_partition_results :
    (∀ (status : String) (v h u f : Nat),
        ((status = "verified" ∨ status = "probable" ∨ status = "likely") →
          stepCounters status v h u f = (v + 1, h, u, f)) ∧
        (status = "has_header" → stepCounters status v h u f = (v, h + 1, u, f)) ∧
        ((status = "hack" ∨ status = "name_match" ∨ status = "unknown" ∨
            status = "no_database") →
          stepCounters status v h u f = (v, h, u + 1, f)) ∧
        (status ∉ ["verified", "has_header", "probable", "likely", "hack",
            "name_match", "unknown", "no_database"] →
          stepCounters status v h u f = (v, h, u, f + 1))) ∧
      (∀ (md5f sha1f : List Nat → List Char) (fs : FS) (dbfs : DbFS)
          (cancel : Nat → Bool) (files : List (List Char)) (idx v h u f : Nat)
          (res : List VResult) (st : DBCache)
          (out : Nat × Nat × Nat × Nat × List VResult × DBCache),
        checkLoop md5f sha1f fs dbfs cancel files idx v h u f res st = .ok out →
        v + h + u + f = res.length →
        out.1 + out.2.1 + out.2.2.1 + out.2.2.2.1 = out.2.2.2.2.1.length) ∧
      (∀ (md5f sha1f : List Nat → List Char) (fs : FS) (dbfs : DbFS)
          (rom_files : List (List Char)) (cancel : Nat → Bool) (st : DBCache)
          (out : Nat × Nat × Nat × Nat × List VResult × DBCache),
        check_folder md5f sha1f fs dbfs rom_files cancel st = .ok out →
        out.1 + out.2.1 + out.2.2.1 + out.2.2.2.1 = out.2.2.2.2.1.length) := by
  refine ⟨?_, ?_, ?_⟩
  · intro status v h u f
    refine ⟨?_, ?_, ?_, ?_⟩
    · rintro (rfl | rfl | rfl) <;> simp [stepCounters]
    · rintro rfl; simp [stepCounters]
    · rintro (rfl | rfl | rfl | rfl) <;> simp [stepCounters]
    · intro hmem
      simp only [List.mem_cons, List.not_mem_nil, or_false] at hmem
      push_neg at hmem
      obtain ⟨h1, h2, h3, h4, h5, h6, h7, h8⟩ := hmem
      simp [stepCounters, h1, h2, h3, h4, h5, h6, h7, h8]
  · exact fun md5f sha1f fs dbfs cancel files =>
      checkLoop_invariant md5f sha1f fs dbfs cancel files
  · intro md5f sha1f fs dbfs rom_files cancel st out hok
    unfold check_folder at hok
    by_cases he : rom_files.isEmpty = true
    · rw [if_pos he] at hok
      injection hok with hok
      subst hok
      rfl
    · rw [if_neg he] at hok
      exact checkLoop_invariant md5f sha1f fs dbfs cancel rom_files 1 0 0 0 0 [] st out
        hok rfl

/-- Witness for C8: the routing at status "verified" and at the foreign
status "error", and a completed one-file scan (an unknown-extension
file) whose counters sum to its single result. -/
theorem c8_counters_partition_results_witness :
    stepCounters "verified" 0 0 0 0 = (1, 0, 0, 0) ∧
      stepCounters "error" 0 0 0 0 = (0, 0, 0, 1) ∧
      (0 : Nat) + 0 + 1 + 0 =
        [({ status := "unknown", message := "Unknown file type",
            filename := "a.xyz".toList, system := none } : VResult)].length :=
  ⟨(c8_counters_partition_results.1 "verified" 0 0 0 0).1 (Or.inl rfl),
   (c8_counters_partition_results.1 "error" 0 0 0 0).2.2.2 (by decide),
   c8_counters_partition_results.2.2 (fun _ => []) (fun _ => [])
     (fun _ => .readable [0]) (fun _ => .missing) ["a.xyz".toList] (fun _ => false) []
     (0, 0, 1, 0,
      [{ status := "unknown", message := "Unknown file type",
         filename := "a.xyz".toList, system := none }], [])
     rfl⟩

/-! ### Claim C1 — duplicate crc32 records are overwritten, not kept -/

/-- C1 (exhibiting the defect): with a backing file carrying two games
("Game A" then "Game B") under the same crc32 `D202EF8D` and size 1, the
loaded catalog holds a single entry — the last one parsed — and
verifying a matching one-byte file returns a `verified` verdict naming
only "Game B", with no `all_regions` field: the dict store
`database[crc] = ...` drops the earlier record, so the multi-region
branch of `verify_rom` cannot trigger and the primary name is the last
encountered, not the first. -/
theorem c1_duplicate_crc_overwritten :
    (load_database dbfsC1 [] "nes").1 =
        [("D202EF8D".toList,
          { name := "Game B".toList, size := "1".toList, md5 := [], sha1 := [] })] ∧
      verify_rom (fun _ => []) (fun _ => []) (fun _ => .readable [0]) dbfsC1 []
          "a.nes".toList =
        .ok ({ status := "verified", message := "Verified Good Dump",
               filename := "a.nes".toList, system := some "nes",
               game_name := some "Game B".toList, all_regions := none,
               crc32 := some "D202EF8D".toList, confidence := some "100%" },
             [("nes",
               [("D202EF8D".toList,
                 { name := "Game B".toList, size := "1".toList,
                   md5 := [], sha1 := [] })])]) :=
  ⟨rfl, rfl⟩

/-! ### Claim C2 — the health scan raises at the cartridge phase -/

/-- C2 (exhibiting the defect): whenever `ROMHealthChecker.check_folder`
reaches its cartridge phase (both earlier cancellation samples false),
it raises instead of returning a results dictionary:
`CartridgeChecker.check_folder` returns a five-element tuple but the
caller unpacks six names (`cart_verified, cart_header, cart_hacks,
cart_unknown, cart_failed, cart_results`), a `ValueError` — and if the
cartridge phase itself raises, that exception propagates unhandled as
well.  No folder yields a normal return. -/
theorem c2_health_scan_raises_on_cart_unpack (chd cue : Nat × Nat × List VResult)
    (md5f sha1f : List Nat → List Char) (fs : FS) (dbfs : DbFS)
    (rom_files : List (List Char)) (cancel : Nat → Bool) (st : DBCache) :
    ∃ e, rom_health_check_folder chd cue false false md5f sha1f fs dbfs rom_files
        cancel st = .error e := by
  cases hcf : check_folder md5f sha1f fs dbfs rom_files cancel st with
  | error e =>
      exact ⟨e, by
        simp only [rom_health_check_folder, Bool.false_eq_true, if_false,
          cart_check_folder_py, hcf]⟩
  | ok r =>
      exact ⟨.valueError, by
        simp only [rom_health_check_folder, Bool.false_eq_true, if_false,
          cart_check_folder_py, hcf]⟩

/-! ### Claim C4 — the partial-digest tier outranks the fuzzy tier -/

/-- C4: when the pipeline reaches the lower tiers (known system, no hack
marker, non-empty catalog, readable file, no exact match, no
header-stripped match) and some catalog entry simultaneously satisfies
the partial-digest condition (at least 2 of crc32/md5/sha1 agree) and
the fuzzy name+size condition (similarity at least 0.8, recorded size
within 512 bytes), `verify_rom` verdicts `probable` — never `likely`:
the level-2 scan returns before level 3 is ever consulted. -/
theorem c4_partial_digest_beats_fuzzy
    (md5f sha1f : List Nat → List Char) (fs : FS) (dbfs : DbFS) (st : DBCache)
    (f : List Char) (system : String) (db : Catalog) (st1 : DBCache) (bytes : List Nat)
    (hsys : detect_system f = some system)
    (hhack : (detect_rom_hack (basename f)).1 = false)
    (hld : load_database dbfs st system = (db, st1))
    (hdb : db ≠ [])
    (hfs : fs f = .readable bytes)
    (hl1 : level1_matches (getsize fs f) (crc32_hex bytes) db = .ok [])
    (hhdr : has_external_header fs f system = true →
      header_matches
        (calculate_checksums md5f sha1f fs f
          ((assocLookup HEADER_SYSTEMS system).getD 0)).1 db = [])
    (hboth : ∃ kv ∈ db,
      digestMatchCount (crc32_hex bytes) (some (upperL (md5f bytes)))
          (some (upperL (sha1f bytes))) kv.1 kv.2 ≥ 2 ∧
        ∃ n : Int, pyIntE kv.2.size = .ok n ∧
          ((getsize fs f : Int) - n).natAbs ≤ 512 ∧
          fuzzy_name_match (basename f) kv.2.name ≥ (8 : ℚ) / 10) :
    (verify_rom md5f sha1f fs dbfs st f).toOption.map (fun rs => (rs.1.status, rs.2)) =
        some ("probable", st1) ∧
      (verify_rom md5f sha1f fs dbfs st f).toOption.map (fun rs => rs.1.status) ≠
        some "likely" := by
  have hcs : calculate_checksums md5f sha1f fs f 0 =
      (some (crc32_hex bytes), some (upperL (md5f bytes)), some (upperL (sha1f bytes))) := by
    unfold calculate_checksums
    rw [hfs]
    rfl
  have hne : db.isEmpty = false := by
    cases db with
    | nil => exact absurd rfl hdb
    | cons a l => rfl
  obtain ⟨kv, hkv⟩ : ∃ kv, level2_find (crc32_hex bytes) (some (upperL (md5f bytes)))
      (some (upperL (sha1f bytes))) db = some kv := by
    refine Option.isSome_iff_exists.mp ?_
    unfold level2_find
    rw [List.find?_isSome]
    obtain ⟨kv, hmem, hcount, _⟩ := hboth
    exact ⟨kv, hmem, by simpa using hcount⟩
  have htail : ∃ r : VResult,
      verify_levels_2_5 (basename f) system (getsize fs f) (crc32_hex bytes)
          (some (upperL (md5f bytes))) (some (upperL (sha1f bytes))) db st1 =
        .ok (r, st1) ∧ r.status = "probable" := by
    unfold verify_levels_2_5
    rw [hkv]
    exact ⟨_, rfl, rfl⟩
  obtain ⟨r, hr, hrs⟩ := htail
  have hroute : verify_rom md5f sha1f fs dbfs st f =
      verify_levels_2_5 (basename f) system (getsize fs f) (crc32_hex bytes)
        (some (upperL (md5f bytes))) (some (upperL (sha1f bytes))) db st1 := by
    unfold verify_rom
    rw [hsys]
    simp only [hhack, Bool.false_eq_true, if_false, hld, hne, hcs]
    simp only [hl1, ne_eq, not_true_eq_false, if_false]
    by_cases hh : has_external_header fs f system = true
    · simp [hh, hhdr hh]
    · simp [hh]
  rw [hroute, hr]
  constructor
  · simp [Except.toOption, hrs]
  · simp [Except.toOption, hrs]

/-- Witness for C4: the file "game.nes" with content `00 01` against a
catalog entry named "game" of size 2 whose md5/sha1 agree with the
computed digests but whose crc32 (`ZZZZZZZZ`) cannot. -/
theorem c4_partial_digest_beats_fuzzy_witness :
    (verify_rom (fun _ => "aa".toList) (fun _ => "bb".toList)
          (fun _ => .readable [0, 1]) dbfsC4 [] "game.nes".toList).toOption.map
        (fun rs => (rs.1.status, rs.2)) =
      some ("probable", assocInsert [] "nes" (build_catalog gamesC4)) ∧
      (verify_rom (fun _ => "aa".toList) (fun _ => "bb".toList)
          (fun _ => .readable [0, 1]) dbfsC4 [] "game.nes".toList).toOption.map
        (fun rs => rs.1.status) ≠ some "likely" :=
  c4_partial_digest_beats_fuzzy (fun _ => "aa".toList) (fun _ => "bb".toList)
    (fun _ => .readable [0, 1]) dbfsC4 [] "game.nes".toList "nes"
    (build_catalog gamesC4) (assocInsert [] "nes" (build_catalog gamesC4)) [0, 1]
    (by decide) (by decide) rfl (by decide) rfl rfl (by decide)
    ⟨("ZZZZZZZZ".toList,
      { name := "game".toList, size := "2".toList,
        md5 := "AA".toList, sha1 := "BB".toList }),
     by decide, by decide,
     ⟨2, rfl, by decide, by
       unfold fuzzy_name_match
       rw [show normFile (basename "game.nes".toList) =
           normDb ("ZZZZZZZZ".toList,
             ({ name := "game".toList, size := "2".toList,
                md5 := "AA".toList, sha1 := "BB".toList } : Entry)).2.name from by decide,
         seqScore_self]
       norm_num⟩⟩

end Rommate
